import Mathlib

/-
Shallow embedding of the email-sequencing subsystem of the revgeni-ai-crm
repository, together with proofs about its operations.

Embedded source locations:
  * cron handler and its helpers `findEmailsDueToday`, `updateNextSendDate`
    (app/api/cron/send-emails route);
  * `assignCompanyToSequence` and `removeCompanyFromSequence`
    (src/lib/sequence-assignment.ts);
  * `replaceEmailVariables` (src/lib/nango.ts);
  * the email send route (app/api/email/send) and the batch
    assignment route (app/api/sequences/assign-companies);
  * the sequence listing route (src/app/api/email-sequences/route.ts).

JavaScript `Date` values are modelled as natural numbers counting
milliseconds; a calendar day is `msPerDay` milliseconds and
`new Date(y, m, d)` (midnight of the current day) is `startOfDay`.
Database rows are modelled as lists of records inside a `Db` state.
-/

def msPerDay : Nat := 86400000

/-- Model of `new Date(now.getFullYear(), now.getMonth(), now.getDate())`:
midnight at the start of the day containing `t`. -/
def startOfDay (t : Nat) : Nat := (t / msPerDay) * msPerDay

/-- Model of `date.setDate(date.getDate() + d)`: add `d` days to a timestamp. -/
def addDaysMs (t : Nat) (d : Nat) : Nat := t + d * msPerDay

/-- Status column of a `CompanySequence` row. -/
inductive SeqStatus where
  | active
  | paused
  | completed
  deriving DecidableEq, Repr

/-- One entry of the `steps` JSON array of an `EmailSequence`. -/
structure Step where
  delay : Nat
  subject : String
  body : String
  deriving DecidableEq, Repr

/-- An `EmailSequence` row. -/
structure EmailSeq where
  id : String
  orgId : String
  name : String
  steps : List Step
  fromName : Option String
  fromEmail : Option String
  createdAt : Nat
  deriving DecidableEq, Repr

/-- A `CompanySequence` row (the assignment of one company to one sequence). -/
structure Assignment where
  id : Nat
  companyId : String
  sequenceId : String
  orgId : String
  currentStep : Nat
  status : SeqStatus
  startedAt : Nat
  nextSendAt : Option Nat
  completedAt : Option Nat
  deriving DecidableEq, Repr

/-- An `OutboxEmail` row (the run log of send attempts). -/
structure OutboxEmail where
  orgId : String
  sequenceId : String
  companyId : Option String
  stepIndex : Nat
  scheduledAt : Nat
  status : String
  providerId : Option String
  error : Option String
  deriving DecidableEq, Repr

/-- The relational store as seen by the embedded operations. -/
structure Db where
  companies : List String
  emailSequences : List EmailSeq
  companySequences : List Assignment
  outboxEmails : List OutboxEmail
  nextId : Nat
  deriving Repr, DecidableEq

/-- Function `updateNextSendDate` from the cron route: after a successful send,
either advance `currentStep` and schedule the next step, or complete the
assignment when the steps are exhausted. -/
def updateNextSendDate (steps : List Step) (now : Nat) (a : Assignment) : Assignment :=
  let nextStepIndex := a.currentStep + 1
  if steps.length ≤ nextStepIndex then
    { a with status := SeqStatus.completed, completedAt := some now, nextSendAt := none }
  else
    { a with currentStep := nextStepIndex,
             nextSendAt := some (addDaysMs now (steps.getD nextStepIndex ⟨0, "", ""⟩).delay) }

/-- N successive successful sends: apply `updateNextSendDate` once per send,
with the given timestamps. -/
def iterateSends (steps : List Step) (times : List Nat) (a : Assignment) : Assignment :=
  times.foldl (fun acc t => updateNextSendDate steps t acc) a

/-- Function `findEmailsDueToday` from the cron route: active assignments whose
`nextSendAt` lies in [start of today, start of tomorrow). -/
def findEmailsDueToday (now : Nat) (rows : List Assignment) : List Assignment :=
  rows.filter fun a =>
    decide (a.status = SeqStatus.active) &&
    (match a.nextSendAt with
     | some t => decide (startOfDay now ≤ t) && decide (t < startOfDay now + msPerDay)
     | none => false)

theorem iterateSends_cons (steps : List Step) (t : Nat) (ts : List Nat) (a : Assignment) :
    iterateSends steps (t :: ts) a = iterateSends steps ts (updateNextSendDate steps t a) := rfl

theorem updateNextSendDate_advance (steps : List Step) (now : Nat) (a : Assignment)
    (h : a.currentStep + 1 < steps.length) :
    updateNextSendDate steps now a =
      { a with currentStep := a.currentStep + 1,
               nextSendAt := some (addDaysMs now (steps.getD (a.currentStep + 1) ⟨0, "", ""⟩).delay) } := by
  unfold updateNextSendDate
  rw [if_neg (by omega)]

theorem updateNextSendDate_complete (steps : List Step) (now : Nat) (a : Assignment)
    (h : steps.length ≤ a.currentStep + 1) :
    updateNextSendDate steps now a =
      { a with status := SeqStatus.completed, completedAt := some now, nextSendAt := none } := by
  unfold updateNextSendDate
  rw [if_pos (by omega)]

theorem iterateSends_completes (steps : List Step) :
    ∀ (times : List Nat) (a : Assignment),
      a.status = SeqStatus.active →
      a.currentStep + times.length = steps.length →
      a.currentStep < steps.length →
      (iterateSends steps times a).status = SeqStatus.completed ∧
      (iterateSends steps times a).currentStep = steps.length - 1 ∧
      (iterateSends steps times a).nextSendAt = none := by
  intro times
  induction times with
  | nil =>
    intro a _ hlen hlt
    simp only [List.length_nil, Nat.add_zero] at hlen
    omega
  | cons t ts ih =>
    intro a hact hlen hlt
    rw [iterateSends_cons]
    by_cases hadv : a.currentStep + 1 < steps.length
    · rw [updateNextSendDate_advance steps t a hadv]
      apply ih
      · exact hact
      · simp only [List.length_cons] at hlen
        simp only
        omega
      · simp only
        omega
    · have hts : ts.length = 0 := by
        simp only [List.length_cons] at hlen
        omega
      have hts' : ts = [] := List.length_eq_zero.mp hts
      subst hts'
      rw [updateNextSendDate_complete steps t a (by omega)]
      refine ⟨rfl, ?_, rfl⟩
      simp only [iterateSends, List.foldl_nil]
      simp only [List.length_cons] at hlen
      omega

/-- C1: on a successful send of step i, `updateNextSendDate` advances to
step i+1 with next-send = now + steps[i+1].delay days and the status field
untouched when i+1 < N, and otherwise marks the assignment completed at
`now` with next-send null and the step index untouched; consequently after
N successful sequential sends from the initial state the assignment is
completed at step index N-1 with next-send null. -/
theorem updateNextSendDate_progression :
    (∀ (steps : List Step) (now : Nat) (a : Assignment),
      a.currentStep + 1 < steps.length →
      updateNextSendDate steps now a =
        { a with currentStep := a.currentStep + 1,
                 nextSendAt := some (addDaysMs now (steps.getD (a.currentStep + 1) ⟨0, "", ""⟩).delay) }) ∧
    (∀ (steps : List Step) (now : Nat) (a : Assignment),
      steps.length ≤ a.currentStep + 1 →
      updateNextSendDate steps now a =
        { a with status := SeqStatus.completed, completedAt := some now, nextSendAt := none }) ∧
    (∀ (steps : List Step) (times : List Nat) (a : Assignment),
      a.currentStep = 0 →
      a.status = SeqStatus.active →
      times.length = steps.length →
      0 < steps.length →
      (iterateSends steps times a).status = SeqStatus.completed ∧
      (iterateSends steps times a).currentStep = steps.length - 1 ∧
      (iterateSends steps times a).nextSendAt = none) := by
  refine ⟨updateNextSendDate_advance, updateNextSendDate_complete, ?_⟩
  intro steps times a h0 hact hlen hpos
  exact iterateSends_completes steps times a hact (by omega) (by omega)

/-- A two-step sequence used for concrete checks. -/
def exSteps : List Step :=
  [⟨0, "Hi \x7b\x7bcompany_name\x7d\x7d", "b0"⟩, ⟨3, "Follow up", "b1"⟩]

/-- A freshly created assignment used for concrete checks. -/
def exFresh : Assignment :=
  { id := 1, companyId := "acme", sequenceId := "seq1", orgId := "demo-org",
    currentStep := 0, status := SeqStatus.active, startedAt := 0,
    nextSendAt := some 0, completedAt := none }

theorem updateNextSendDate_progression_witness :
    (exFresh.currentStep + 1 < exSteps.length ∧
      updateNextSendDate exSteps 0 exFresh =
        { exFresh with currentStep := exFresh.currentStep + 1,
                       nextSendAt := some (addDaysMs 0 (exSteps.getD (exFresh.currentStep + 1) ⟨0, "", ""⟩).delay) }) ∧
    (exSteps.length ≤ (updateNextSendDate exSteps 0 exFresh).currentStep + 1 ∧
      updateNextSendDate exSteps msPerDay (updateNextSendDate exSteps 0 exFresh) =
        { updateNextSendDate exSteps 0 exFresh with
            status := SeqStatus.completed, completedAt := some msPerDay, nextSendAt := none }) ∧
    ((iterateSends exSteps [0, 3 * msPerDay] exFresh).status = SeqStatus.completed ∧
      (iterateSends exSteps [0, 3 * msPerDay] exFresh).currentStep = exSteps.length - 1 ∧
      (iterateSends exSteps [0, 3 * msPerDay] exFresh).nextSendAt = none) :=
  ⟨⟨by decide, updateNextSendDate_progression.1 exSteps 0 exFresh (by decide)⟩,
   ⟨by decide, updateNextSendDate_progression.2.1 exSteps msPerDay
      (updateNextSendDate exSteps 0 exFresh) (by decide)⟩,
   updateNextSendDate_progression.2.2 exSteps [0, 3 * msPerDay] exFresh rfl rfl rfl (by decide)⟩

/-- Example assignment with a given id and next-send timestamp. -/
def exDue (i : Nat) (t : Nat) : Assignment :=
  { id := i, companyId := "c", sequenceId := "s", orgId := "demo-org",
    currentStep := 0, status := SeqStatus.active, startedAt := 0,
    nextSendAt := some t, completedAt := none }

/-- A reference "now" inside day 5 (01:00 into the day). -/
def exNow : Nat := 5 * msPerDay + 3600000

/-- C2: the Due-Item Selector returns exactly the active assignments whose
next-send t satisfies start-of-day(now) ≤ t < start-of-day(now) + 1 day;
concretely, with now inside day 5, yesterday 23:59 and tomorrow 00:00 are
not selected while today 00:00:00 and today 23:59:59 are. -/
theorem findEmailsDueToday_window :
    (∀ (now : Nat) (rows : List Assignment) (a : Assignment),
      a ∈ findEmailsDueToday now rows ↔
        a ∈ rows ∧ a.status = SeqStatus.active ∧
        ∃ t, a.nextSendAt = some t ∧ startOfDay now ≤ t ∧ t < startOfDay now + msPerDay) ∧
    findEmailsDueToday exNow
        [exDue 1 (5 * msPerDay - 60000), exDue 2 (5 * msPerDay),
         exDue 3 (6 * msPerDay - 1000), exDue 4 (6 * msPerDay)] =
      [exDue 2 (5 * msPerDay), exDue 3 (6 * msPerDay - 1000)] := by
  constructor
  · intro now rows a
    unfold findEmailsDueToday
    rw [List.mem_filter]
    constructor
    · rintro ⟨hmem, hcond⟩
      refine ⟨hmem, ?_, ?_⟩
      · cases hst : a.nextSendAt with
        | none => rw [hst] at hcond; simp at hcond
        | some t => rw [hst] at hcond; simp at hcond; exact hcond.1
      · cases hst : a.nextSendAt with
        | none => rw [hst] at hcond; simp at hcond
        | some t =>
          rw [hst] at hcond
          simp at hcond
          exact ⟨t, rfl, hcond.2.1, hcond.2.2⟩
    · rintro ⟨hmem, hact, t, hst, hle, hlt⟩
      refine ⟨hmem, ?_⟩
      rw [hst]
      simp [hact, hle, hlt]
  · decide

/-- Model of `String.prototype.replace` with a global literal pattern: replace every
leftmost non-overlapping occurrence of `pat` in the subject by `rep`,
scanning left to right and resuming after each match. -/
def replaceAllList (pat rep : List Char) : List Char → List Char
  | [] => []
  | c :: rest =>
    if pat ≠ [] ∧ pat.isPrefixOf (c :: rest) then
      rep ++ replaceAllList pat rep (rest.drop (pat.length - 1))
    else
      c :: replaceAllList pat rep rest
termination_by s => s.length
decreasing_by
  · simp only [List.length_cons, List.length_drop]
    omega
  · simp only [List.length_cons]
    omega

/-- String form of `replaceAllList`. -/
def replaceAllStr (s pat rep : String) : String :=
  String.mk (replaceAllList pat.data rep.data s.data)

/-- The `\x7b\x7bname\x7d\x7d` pattern built by `replaceEmailVariables`. -/
def placeholderPat (key : String) : String := "\x7b\x7b" ++ key ++ "\x7d\x7d"

/-- Model of `value || [key]`: the replacement text, falling back to the literal
bracketed placeholder when the value is falsy (absent or empty). -/
def varText (key : String) (value : Option String) : String :=
  match value with
  | some v => if v = "" then "[" ++ key ++ "]" else v
  | none => "[" ++ key ++ "]"

/-- Function `replaceEmailVariables` from src/lib/nango.ts: fold over the variable
mapping, each entry globally replacing its placeholder. -/
def replaceEmailVariables (template : String) (vars : List (String × Option String)) : String :=
  vars.foldl (fun res kv => replaceAllStr res (placeholderPat kv.1) (varText kv.1 kv.2)) template

theorem replaceAllList_nil (pat rep : List Char) : replaceAllList pat rep [] = [] := by
  rw [replaceAllList]

theorem replaceAllList_no_occurrence (pat rep : List Char) :
    ∀ s : List Char, ¬ (pat <:+: s) → replaceAllList pat rep s = s := by
  intro s
  induction s with
  | nil => intro _; exact replaceAllList_nil pat rep
  | cons c rest ih =>
    intro hno
    rw [replaceAllList]
    rw [if_neg, ih]
    · intro hinf
      exact hno (List.infix_cons_iff.mpr (Or.inr hinf))
    · rintro ⟨hne, hpre⟩
      exact hno (List.infix_cons_iff.mpr
        (Or.inl (List.isPrefixOf_iff_prefix.mp hpre)))

theorem replaceAllList_head (pat rep tail : List Char) (hne : pat ≠ []) :
    replaceAllList pat rep (pat ++ tail) = rep ++ replaceAllList pat rep tail := by
  cases pat with
  | nil => exact absurd rfl hne
  | cons p ps =>
    rw [List.cons_append, replaceAllList, if_pos]
    · have hdrop : (ps ++ tail).drop ((p :: ps).length - 1) = tail := by
        simp only [List.length_cons, Nat.add_sub_cancel]
        exact List.drop_left ps tail
      rw [hdrop]
    · refine ⟨by simp, ?_⟩
      rw [← List.cons_append]
      exact List.isPrefixOf_iff_prefix.mpr (List.prefix_append (p :: ps) tail)

theorem data_placeholderPat (key : String) :
    (placeholderPat key).data = "\x7b\x7b".data ++ key.data ++ "\x7d\x7d".data := rfl

theorem placeholderPat_ne_nil (key : String) : (placeholderPat key).data ≠ [] := by
  rw [data_placeholderPat]
  simp

theorem bracket_ne_empty (key : String) : ("[" ++ key ++ "]" : String) ≠ "" := by
  intro h
  have hd : ("[" ++ key ++ "]" : String).data = ("" : String).data := congrArg String.data h
  rw [show ("[" ++ key ++ "]" : String).data = "[".data ++ key.data ++ "]".data from rfl] at hd
  have hlen : ("[".data ++ key.data ++ "]".data).length = (("" : String).data).length :=
    congrArg List.length hd
  simp [List.length_append] at hlen

theorem varText_ne_empty (key : String) (v : Option String) : varText key v ≠ "" := by
  cases v with
  | none => simp only [varText]; exact bracket_ne_empty key
  | some s =>
    by_cases hs : s = ""
    · simp only [varText, hs, if_pos]
      exact bracket_ne_empty key
    · simp only [varText]
      rw [if_neg hs]
      exact hs

theorem replaceEmailVariables_single (t : String) (key : String) (v : Option String) :
    replaceEmailVariables t [(key, v)] = replaceAllStr t (placeholderPat key) (varText key v) := rfl

theorem replaceEmailVariables_single_no_occurrence (t key : String) (v : Option String)
    (h : ¬ ((placeholderPat key).data <:+: t.data)) :
    replaceEmailVariables t [(key, v)] = t := by
  rw [replaceEmailVariables_single]
  unfold replaceAllStr
  rw [replaceAllList_no_occurrence _ _ _ h]

theorem replaceEmailVariables_single_head (key : String) (v : Option String) (tail : String) :
    replaceEmailVariables (placeholderPat key ++ tail) [(key, v)] =
      varText key v ++ replaceEmailVariables tail [(key, v)] := by
  rw [replaceEmailVariables_single, replaceEmailVariables_single]
  unfold replaceAllStr
  have hdata : (placeholderPat key ++ tail).data = (placeholderPat key).data ++ tail.data := rfl
  rw [hdata, replaceAllList_head _ _ _ (placeholderPat_ne_nil key)]
  rfl

/-- C5: `replaceEmailVariables` replaces every occurrence of the
placeholder of a supplied key with the mapped value, substituting the
literal bracketed `[name]` (never the empty string) when the value is
falsy/missing; concretely the spec's example renders to
"Hi Jane, re [company_name]". -/
theorem replaceEmailVariables_substitution :
    replaceEmailVariables "Hi \x7b\x7bcontact_name\x7d\x7d, re \x7b\x7bcompany_name\x7d\x7d"
        [("contact_name", some "Jane"), ("company_name", none)] = "Hi Jane, re [company_name]" ∧
    (∀ (key : String) (v : Option String) (tail : String),
      replaceEmailVariables (placeholderPat key ++ tail) [(key, v)] =
        varText key v ++ replaceEmailVariables tail [(key, v)]) ∧
    (∀ (t key : String) (v : Option String),
      ¬ ((placeholderPat key).data <:+: t.data) →
      replaceEmailVariables t [(key, v)] = t) ∧
    (∀ (key : String), varText key none = "[" ++ key ++ "]" ∧
      varText key (some "") = "[" ++ key ++ "]") ∧
    (∀ (key : String) (v : Option String), varText key v ≠ "") := by
  refine ⟨?_, replaceEmailVariables_single_head,
    replaceEmailVariables_single_no_occurrence, fun key => ⟨rfl, rfl⟩, varText_ne_empty⟩
  show replaceEmailVariables _ _ = _
  unfold replaceEmailVariables
  simp only [List.foldl_cons, List.foldl_nil]
  unfold replaceAllStr
  apply congrArg String.mk
  simp +decide [replaceAllList, placeholderPat, varText]

theorem replaceEmailVariables_substitution_witness :
    ¬ ((placeholderPat "contact_name").data <:+: ("no placeholders here" : String).data) ∧
    replaceEmailVariables "no placeholders here" [("contact_name", some "Jane")] =
      "no placeholders here" :=
  ⟨by decide,
   replaceEmailVariables_substitution.2.2.1 "no placeholders here" "contact_name"
     (some "Jane") (by decide)⟩

theorem string_mk_data (s : String) : String.mk s.data = s := rfl

theorem replaceEmailVariables_no_keys_occur (t : String) :
    ∀ (vars : List (String × Option String)),
      (∀ kv ∈ vars, ¬ ((placeholderPat kv.1).data <:+: t.data)) →
      replaceEmailVariables t vars = t := by
  intro vars
  induction vars with
  | nil => intro _; rfl
  | cons kv rest ih =>
    intro h
    show replaceEmailVariables (replaceAllStr t (placeholderPat kv.1) (varText kv.1 kv.2)) rest = t
    have hstep : replaceAllStr t (placeholderPat kv.1) (varText kv.1 kv.2) = t := by
      unfold replaceAllStr
      rw [replaceAllList_no_occurrence _ _ _ (h kv (List.mem_cons_self kv rest))]
    rw [hstep]
    exact ih (fun kv2 hkv2 => h kv2 (List.mem_cons_of_mem kv hkv2))

/-- C10: `replaceEmailVariables` substitutes only placeholders whose names
are keys of the supplied mapping: with an empty mapping the template is
returned unchanged, placeholders of keys that never occur leave the
template unchanged, and concretely an occurrence of a placeholder whose
name is absent from the mapping stays verbatim while the present key is
substituted. -/
theorem replaceEmailVariables_absent_key :
    replaceEmailVariables "Hi \x7b\x7bcontact_name\x7d\x7d, re \x7b\x7bcompany_name\x7d\x7d"
        [("company_name", some "Acme")] =
      "Hi \x7b\x7bcontact_name\x7d\x7d, re Acme" ∧
    (∀ t : String, replaceEmailVariables t [] = t) ∧
    (∀ (t : String) (vars : List (String × Option String)),
      (∀ kv ∈ vars, ¬ ((placeholderPat kv.1).data <:+: t.data)) →
      replaceEmailVariables t vars = t) := by
  refine ⟨?_, fun t => rfl, replaceEmailVariables_no_keys_occur⟩
  show replaceEmailVariables _ _ = _
  unfold replaceEmailVariables
  simp only [List.foldl_cons, List.foldl_nil]
  unfold replaceAllStr
  apply congrArg String.mk
  simp +decide [replaceAllList, placeholderPat, varText]

theorem replaceEmailVariables_absent_key_witness :
    (∀ kv ∈ [(("company_name" : String), (some "Acme" : Option String))],
      ¬ ((placeholderPat kv.1).data <:+: ("Hi there" : String).data)) ∧
    replaceEmailVariables "Hi there" [("company_name", some "Acme")] = "Hi there" :=
  ⟨by decide, replaceEmailVariables_absent_key.2.2 "Hi there"
    [("company_name", some "Acme")] (by decide)⟩

/-- Counters and state threaded through the cron handler loop. -/
structure CronOutcome where
  rows : List Assignment
  outbox : List OutboxEmail
  sent : Nat
  failed : Nat
  deriving Repr

/-- The run-log row the cron handler writes when a send attempt throws. -/
def failedLogEntry (a : Assignment) (now : Nat) (e : String) : OutboxEmail :=
  { orgId := a.orgId, sequenceId := a.sequenceId, companyId := some a.companyId,
    stepIndex := a.currentStep, scheduledAt := now, status := "failed",
    providerId := none, error := some e }

/-- Model of the prisma update by id: apply `f` to the
row with the given id. -/
def updateRowById (rows : List Assignment) (i : Nat) (f : Assignment → Assignment) :
    List Assignment :=
  rows.map fun a => if a.id = i then f a else a

/-- The `for (const emailData of emailsToSend)` loop of the cron `GET`
handler: try to send each due item; on success advance it with
`updateNextSendDate`, on a thrown error write one "failed" outbox row and
carry on with the rest of the batch. The send outcome is abstracted by the
oracle `send`. -/
def cronProcess (send : Assignment → Except String Unit) (stepsOf : String → List Step)
    (now : Nat) : List Assignment → CronOutcome → CronOutcome
  | [], st => st
  | a :: rest, st =>
    match send a with
    | Except.ok _ =>
      cronProcess send stepsOf now rest
        { st with
            rows := updateRowById st.rows a.id (updateNextSendDate (stepsOf a.sequenceId) now),
            sent := st.sent + 1 }
    | Except.error e =>
      cronProcess send stepsOf now rest
        { st with outbox := st.outbox ++ [failedLogEntry a now e], failed := st.failed + 1 }

/-- C3: when the dispatch of a due item's current step throws, the cron
loop leaves every assignment row untouched (step index, next-send and
status unchanged), appends exactly one outbox entry with status "failed",
the error text and the attempted step index, and continues with the
remaining due items. -/
theorem cronProcess_failure_no_advance :
    ∀ (send : Assignment → Except String Unit) (stepsOf : String → List Step)
      (now : Nat) (a : Assignment) (rest : List Assignment) (st : CronOutcome) (e : String),
      send a = Except.error e →
      cronProcess send stepsOf now (a :: rest) st =
        cronProcess send stepsOf now rest
          { st with outbox := st.outbox ++ [failedLogEntry a now e], failed := st.failed + 1 } ∧
      (failedLogEntry a now e).status = "failed" ∧
      (failedLogEntry a now e).stepIndex = a.currentStep ∧
      (failedLogEntry a now e).error = some e := by
  intro send stepsOf now a rest st e h
  refine ⟨?_, rfl, rfl, rfl⟩
  rw [cronProcess, h]

/-- A send oracle that always throws. -/
def alwaysFailSend : Assignment → Except String Unit := fun _ => Except.error "boom"

theorem cronProcess_failure_no_advance_witness :
    alwaysFailSend exFresh = Except.error "boom" ∧
    cronProcess alwaysFailSend (fun _ => exSteps) 0 [exFresh]
        ⟨[exFresh], [], 0, 0⟩ =
      cronProcess alwaysFailSend (fun _ => exSteps) 0 []
        ⟨[exFresh], [failedLogEntry exFresh 0 "boom"], 0, 1⟩ :=
  ⟨rfl, (cronProcess_failure_no_advance alwaysFailSend (fun _ => exSteps) 0 exFresh []
      ⟨[exFresh], [], 0, 0⟩ "boom" rfl).1⟩

/-- The `where: {companyId, sequenceId}` lookup predicate. -/
def pairMatches (companyId sequenceId : String) (a : Assignment) : Bool :=
  a.companyId == companyId && a.sequenceId == sequenceId

/-- The `where: {id: sequenceId}` lookup predicate. -/
def seqIdMatches (sequenceId : String) (sq : EmailSeq) : Bool :=
  sq.id == sequenceId

/-- The row `prisma.companySequence.create` inserts: step 0, active,
started and next-send at the enrollment time. -/
def newAssignment (db : Db) (companyId sequenceId orgId : String) (now : Nat) : Assignment :=
  { id := db.nextId, companyId := companyId, sequenceId := sequenceId, orgId := orgId,
    currentStep := 0, status := SeqStatus.active, startedAt := now,
    nextSendAt := some now, completedAt := none }

/-- The store after a fresh assignment has been created. -/
def dbAfterAssign (db : Db) (companyId sequenceId orgId : String) (now : Nat) : Db :=
  { db with companySequences := db.companySequences ++ [newAssignment db companyId sequenceId orgId now],
            nextId := db.nextId + 1 }

/-- Function `assignCompanyToSequence` from src/lib/sequence-assignment.ts:
validate the inputs, check that the company and the sequence exist, return
the existing assignment for the pair if there is one, and otherwise create
a fresh one in the initial state. -/
def assignCompanyToSequence (db : Db) (companyId sequenceId orgId : String) (now : Nat) :
    Except String (Db × Assignment) :=
  if companyId = "" ∨ sequenceId = "" ∨ orgId = "" then
    Except.error "Missing required fields"
  else if db.companies.contains companyId = false then
    Except.error ("Company " ++ companyId ++ " not found")
  else if (db.emailSequences.find? (seqIdMatches sequenceId)).isNone = true then
    Except.error ("Email sequence " ++ sequenceId ++ " not found")
  else
    match db.companySequences.find? (pairMatches companyId sequenceId) with
    | some existing => Except.ok (db, existing)
    | none => Except.ok (dbAfterAssign db companyId sequenceId orgId now,
        newAssignment db companyId sequenceId orgId now)

theorem pairMatches_newAssignment (db : Db) (companyId sequenceId orgId : String) (now : Nat) :
    pairMatches companyId sequenceId (newAssignment db companyId sequenceId orgId now) = true := by
  simp [pairMatches, newAssignment]

/-- C4: creating an assignment is idempotent per (company, sequence) pair:
with the company and sequence present and no existing assignment for the
pair, the first call creates exactly one row starting at step 0, active,
with next-send equal to the enrollment time, and a second call returns the
very same record without modifying the store. -/
theorem assignCompanyToSequence_idempotent :
    ∀ (db : Db) (companyId sequenceId orgId : String) (now now2 : Nat),
      companyId ≠ "" → sequenceId ≠ "" → orgId ≠ "" →
      db.companies.contains companyId = true →
      (db.emailSequences.find? (seqIdMatches sequenceId)).isNone = false →
      db.companySequences.find? (pairMatches companyId sequenceId) = none →
      assignCompanyToSequence db companyId sequenceId orgId now =
        Except.ok (dbAfterAssign db companyId sequenceId orgId now,
          newAssignment db companyId sequenceId orgId now) ∧
      (newAssignment db companyId sequenceId orgId now).currentStep = 0 ∧
      (newAssignment db companyId sequenceId orgId now).status = SeqStatus.active ∧
      (newAssignment db companyId sequenceId orgId now).nextSendAt = some now ∧
      (newAssignment db companyId sequenceId orgId now).startedAt = now ∧
      assignCompanyToSequence (dbAfterAssign db companyId sequenceId orgId now)
          companyId sequenceId orgId now2 =
        Except.ok (dbAfterAssign db companyId sequenceId orgId now,
          newAssignment db companyId sequenceId orgId now) ∧
      ((dbAfterAssign db companyId sequenceId orgId now).companySequences.filter
          (pairMatches companyId sequenceId)).length = 1 := by
  intro db companyId sequenceId orgId now now2 hc hs ho hcont hseq hnone
  have hvalid : ¬ (companyId = "" ∨ sequenceId = "" ∨ orgId = "") := by
    simp [hc, hs, ho]
  have hfind1 : (dbAfterAssign db companyId sequenceId orgId now).companySequences.find?
      (pairMatches companyId sequenceId) =
      some (newAssignment db companyId sequenceId orgId now) := by
    show (db.companySequences ++ [newAssignment db companyId sequenceId orgId now]).find?
        (pairMatches companyId sequenceId) = _
    rw [List.find?_append, hnone]
    simp [List.find?, pairMatches_newAssignment]
  have hcont2 : ¬ (db.companies.contains companyId = false) := by
    rw [hcont]
    simp
  have hseq2 : ¬ ((db.emailSequences.find? (seqIdMatches sequenceId)).isNone = true) := by
    rw [hseq]
    simp
  refine ⟨?_, rfl, rfl, rfl, rfl, ?_, ?_⟩
  · unfold assignCompanyToSequence
    rw [if_neg hvalid, if_neg hcont2, if_neg hseq2, hnone]
  · unfold assignCompanyToSequence
    rw [show (dbAfterAssign db companyId sequenceId orgId now).companies = db.companies from rfl,
      show (dbAfterAssign db companyId sequenceId orgId now).emailSequences = db.emailSequences
        from rfl,
      if_neg hvalid, if_neg hcont2, if_neg hseq2, hfind1]
  · show ((db.companySequences ++ [newAssignment db companyId sequenceId orgId now]).filter
        (pairMatches companyId sequenceId)).length = 1
    rw [List.filter_append]
    have hfl : db.companySequences.filter (pairMatches companyId sequenceId) = [] := by
      rw [List.filter_eq_nil_iff]
      intro a ha
      exact (List.find?_eq_none.mp hnone) a ha
    rw [hfl]
    simp [List.filter, pairMatches_newAssignment]

/-- A concrete sequence row for witnesses. -/
def exEmailSeq : EmailSeq :=
  { id := "seq1", orgId := "demo-org", name := "Welcome", steps := exSteps,
    fromName := some "Sales Team", fromEmail := none, createdAt := 10 }

/-- A concrete store with one company, one sequence and no assignments. -/
def exDb : Db :=
  { companies := ["acme"], emailSequences := [exEmailSeq], companySequences := [],
    outboxEmails := [], nextId := 7 }

theorem assignCompanyToSequence_idempotent_witness :
    assignCompanyToSequence exDb "acme" "seq1" "demo-org" 5 =
      Except.ok (dbAfterAssign exDb "acme" "seq1" "demo-org" 5,
        newAssignment exDb "acme" "seq1" "demo-org" 5) ∧
    (newAssignment exDb "acme" "seq1" "demo-org" 5).currentStep = 0 ∧
    (newAssignment exDb "acme" "seq1" "demo-org" 5).status = SeqStatus.active ∧
    (newAssignment exDb "acme" "seq1" "demo-org" 5).nextSendAt = some 5 ∧
    (newAssignment exDb "acme" "seq1" "demo-org" 5).startedAt = 5 ∧
    assignCompanyToSequence (dbAfterAssign exDb "acme" "seq1" "demo-org" 5)
        "acme" "seq1" "demo-org" 99 =
      Except.ok (dbAfterAssign exDb "acme" "seq1" "demo-org" 5,
        newAssignment exDb "acme" "seq1" "demo-org" 5) ∧
    ((dbAfterAssign exDb "acme" "seq1" "demo-org" 5).companySequences.filter
        (pairMatches "acme" "seq1")).length = 1 :=
  assignCompanyToSequence_idempotent exDb "acme" "seq1" "demo-org" 5 99
    (by decide) (by decide) (by decide) (by decide) (by decide) (by decide)

/-- The per-row effect of `prisma.companySequence.updateMany({where: {companyId,
sequenceId}, data: {status: "paused"}})`: only the status column of the
matching rows is written. -/
def pauseRow (companyId sequenceId : String) (a : Assignment) : Assignment :=
  if pairMatches companyId sequenceId a then { a with status := SeqStatus.paused } else a

/-- Function `removeCompanyFromSequence` from src/lib/sequence-assignment.ts. -/
def removeCompanyFromSequence (db : Db) (companyId sequenceId : String) : Db :=
  { db with companySequences := db.companySequences.map (pauseRow companyId sequenceId) }

/-- C7: pausing sets the status of the matching assignments to paused while
leaving their step index, next-send, identity and enrollment data
untouched, deletes neither assignments nor run-log history, writes no
run-log entry, and a due-selector pass over the paused store never returns
an assignment of the paused pair. -/
theorem removeCompanyFromSequence_pause :
    ∀ (db : Db) (companyId sequenceId : String) (now : Nat),
      (removeCompanyFromSequence db companyId sequenceId).outboxEmails = db.outboxEmails ∧
      (removeCompanyFromSequence db companyId sequenceId).companySequences.length =
        db.companySequences.length ∧
      (removeCompanyFromSequence db companyId sequenceId).companySequences =
        db.companySequences.map (pauseRow companyId sequenceId) ∧
      (∀ a : Assignment,
        (pauseRow companyId sequenceId a).currentStep = a.currentStep ∧
        (pauseRow companyId sequenceId a).nextSendAt = a.nextSendAt ∧
        (pauseRow companyId sequenceId a).id = a.id ∧
        (pauseRow companyId sequenceId a).companyId = a.companyId ∧
        (pauseRow companyId sequenceId a).sequenceId = a.sequenceId ∧
        (pairMatches companyId sequenceId a = true →
          (pauseRow companyId sequenceId a).status = SeqStatus.paused) ∧
        (pairMatches companyId sequenceId a = false →
          pauseRow companyId sequenceId a = a)) ∧
      (∀ a ∈ findEmailsDueToday now
          (removeCompanyFromSequence db companyId sequenceId).companySequences,
        pairMatches companyId sequenceId a = false) := by
  intro db companyId sequenceId now
  refine ⟨rfl, by simp [removeCompanyFromSequence], rfl, ?_, ?_⟩
  · intro a
    by_cases h : pairMatches companyId sequenceId a
    · refine ⟨?_, ?_, ?_, ?_, ?_, fun _ => ?_, fun hf => ?_⟩ <;>
        simp [pauseRow, h] at *
    · refine ⟨?_, ?_, ?_, ?_, ?_, fun ht => ?_, fun _ => ?_⟩ <;>
        simp [pauseRow, h] at *
  · intro a ha
    have hmem : a ∈ (removeCompanyFromSequence db companyId sequenceId).companySequences ∧
        a.status = SeqStatus.active := by
      unfold findEmailsDueToday at ha
      have h2 := List.mem_filter.mp ha
      refine ⟨h2.1, ?_⟩
      have h3 := h2.2
      rcases Bool.and_eq_true_iff.mp h3 with ⟨h4, _⟩
      exact of_decide_eq_true h4
    rcases hmem with ⟨hmem1, hact⟩
    rcases List.mem_map.mp hmem1 with ⟨b, hb, hba⟩
    by_cases hpb : pairMatches companyId sequenceId b
    · exfalso
      rw [← hba] at hact
      simp [pauseRow, hpb] at hact
    · rw [← hba]
      simp [pauseRow, hpb]

/-- A store holding one active assignment of the example pair. -/
def exDbPaused : Db :=
  { companies := ["acme"], emailSequences := [exEmailSeq],
    companySequences := [exFresh], outboxEmails := [], nextId := 9 }

theorem removeCompanyFromSequence_pause_witness :
    (removeCompanyFromSequence exDbPaused "acme" "seq1").outboxEmails =
      exDbPaused.outboxEmails ∧
    (pauseRow "acme" "seq1" exFresh).currentStep = exFresh.currentStep ∧
    (∀ a ∈ findEmailsDueToday 0
        (removeCompanyFromSequence exDbPaused "acme" "seq1").companySequences,
      pairMatches "acme" "seq1" a = false) :=
  ⟨(removeCompanyFromSequence_pause exDbPaused "acme" "seq1" 0).1,
   ((removeCompanyFromSequence_pause exDbPaused "acme" "seq1" 0).2.2.2.1 exFresh).1,
   (removeCompanyFromSequence_pause exDbPaused "acme" "seq1" 0).2.2.2.2⟩

/-- The observable outcome of the email send `POST` route: HTTP status,
response mode, response message id and the outbox rows written. -/
structure SendRouteResult where
  httpStatus : Nat
  mode : Option String
  messageId : Option String
  outboxWrites : List OutboxEmail
  deriving DecidableEq, Repr

/-- The "sent" run-log row the send route writes after a successful
provider call. -/
def sentLogEntry (orgId : String) (scheduledAt : Nat) (providerId : String) : OutboxEmail :=
  { orgId := orgId, sequenceId := "test-sequence", companyId := none, stepIndex := 0,
    scheduledAt := scheduledAt, status := "sent", providerId := some providerId,
    error := none }

/-- The email send `POST` route (app/api/email/send): with a connection id
resolved, if the Nango client is configured, call the provider; only when
that call returns does it write one "sent" outbox row (skipped when the
database write itself throws) and answer in mode "nango"; when the
provider call throws, or Nango is not configured, it answers with the mock
response and writes nothing. Without any connection id the handler throws
and answers 500. The provider call is abstracted by `nangoSend`, returning
the optional provider message id. -/
def emailSendPOST (nangoConfigured : Bool) (connectionId : Option String)
    (nangoSend : Except String (Option String)) (dbLogOk : Bool)
    (orgId : String) (scheduledAt : Nat) (now : Nat) : SendRouteResult :=
  match connectionId with
  | none => { httpStatus := 500, mode := none, messageId := none, outboxWrites := [] }
  | some _ =>
    if nangoConfigured then
      match nangoSend with
      | Except.ok respId =>
        { httpStatus := 200, mode := some "nango",
          messageId := some (respId.getD "nango_sent"),
          outboxWrites :=
            if dbLogOk then
              [sentLogEntry orgId scheduledAt (respId.getD ("gmail_" ++ toString now))]
            else [] }
      | Except.error _ =>
        { httpStatus := 200, mode := some "mock",
          messageId := some ("mock_" ++ toString now), outboxWrites := [] }
    else
      { httpStatus := 200, mode := some "mock",
        messageId := some ("mock_" ++ toString now), outboxWrites := [] }

/-- C6: a "sent" outbox row is written only after the provider call
returned success, and it carries the provider's message id (with the
code's `gmail_` fallback when the provider returned none); when the
provider call fails no outbox row at all is written, so no log entry ever
claims success for a failed send. -/
theorem emailSendPOST_sent_only_on_success :
    (∀ (nangoConfigured : Bool) (connectionId : Option String)
       (nangoSend : Except String (Option String)) (dbLogOk : Bool)
       (orgId : String) (scheduledAt now : Nat) (e : OutboxEmail),
      e ∈ (emailSendPOST nangoConfigured connectionId nangoSend dbLogOk
            orgId scheduledAt now).outboxWrites →
      e.status = "sent" →
      ∃ m : Option String, nangoSend = Except.ok m ∧
        e.providerId = some (m.getD ("gmail_" ++ toString now))) ∧
    (∀ (nangoConfigured : Bool) (connectionId : Option String) (dbLogOk : Bool)
       (orgId : String) (scheduledAt now : Nat) (err : String),
      (emailSendPOST nangoConfigured connectionId (Except.error err) dbLogOk
        orgId scheduledAt now).outboxWrites = []) := by
  constructor
  · intro nangoConfigured connectionId nangoSend dbLogOk orgId scheduledAt now e hmem hsent
    cases connectionId with
    | none => simp [emailSendPOST] at hmem
    | some cid =>
      cases hnc : nangoConfigured with
      | false => simp [emailSendPOST, hnc] at hmem
      | true =>
        cases hsend : nangoSend with
        | error msg => simp [emailSendPOST, hnc, hsend] at hmem
        | ok respId =>
          refine ⟨respId, rfl, ?_⟩
          cases hdb : dbLogOk with
          | false => simp [emailSendPOST, hnc, hsend, hdb] at hmem
          | true =>
            simp [emailSendPOST, hnc, hsend, hdb] at hmem
            rw [hmem]
            rfl
  · intro nangoConfigured connectionId dbLogOk orgId scheduledAt now err
    cases connectionId with
    | none => rfl
    | some cid =>
      cases nangoConfigured with
      | false => rfl
      | true => rfl

theorem emailSendPOST_sent_only_on_success_witness :
    (sentLogEntry "demo-org" 3 "msg1" ∈
      (emailSendPOST true (some "conn") (Except.ok (some "msg1")) true
        "demo-org" 3 4).outboxWrites) ∧
    (sentLogEntry "demo-org" 3 "msg1").status = "sent" ∧
    (sentLogEntry "demo-org" 3 "msg1").providerId = some "msg1" ∧
    (emailSendPOST true (some "conn") (Except.error "down") true
      "demo-org" 3 4).outboxWrites = [] := by
  refine ⟨by decide, rfl, ?_,
    emailSendPOST_sent_only_on_success.2 true (some "conn") true "demo-org" 3 4 "down"⟩
  rcases emailSendPOST_sent_only_on_success.1 true (some "conn")
      (Except.ok (some "msg1")) true "demo-org" 3 4 (sentLogEntry "demo-org" 3 "msg1")
      (by decide) rfl with ⟨m, hm, hp⟩
  have hm2 : some "msg1" = m := by injection hm
  rw [hp, ← hm2]
  rfl

/-- The JSON response of the batch assignment `POST` route. -/
structure AssignResponse where
  httpStatus : Nat
  success : Option Bool
  assigned : Option Nat
  failed : Option Nat
  results : Option (List Assignment)
  errors : Option (List (String × String))
  errMsg : Option String
  deriving Repr

/-- A 400 validation response with the given error text. -/
def resp400 (msg : String) : AssignResponse :=
  { httpStatus := 400, success := none, assigned := none, failed := none,
    results := none, errors := none, errMsg := some msg }

/-- The `for (const companyId of companyIds)` loop of the batch assignment
route: each company is assigned in turn; a per-item throw is caught and
pushed onto `errors` while the loop carries on. Returns the final store,
the successful results in order, and the collected (companyId, message)
errors. -/
def assignLoop (now : Nat) (sequenceId orgId : String) :
    Db → List String → Db × List Assignment × List (String × String)
  | db, [] => (db, [], [])
  | db, c :: rest =>
    match assignCompanyToSequence db c sequenceId orgId now with
    | Except.ok (db2, a) =>
      let r := assignLoop now sequenceId orgId db2 rest
      (r.1, a :: r.2.1, r.2.2)
    | Except.error e =>
      let r := assignLoop now sequenceId orgId db rest
      (r.1, r.2.1, (c, e) :: r.2.2)

/-- The batch assignment `POST` route (app/api/sequences/assign-companies):
401 without a user, 400 on missing/empty companyIds or missing sequence
id, then the per-company loop with org id hard-coded to "demo-org"; 500
when there are errors and no successes, and otherwise a success payload
with counts, results and the optional errors array. -/
def assignCompaniesPOST (user : Option String) (companyIds : Option (List String))
    (sequenceId : Option String) (db : Db) (now : Nat) : Db × AssignResponse :=
  match user with
  | none =>
    (db, { httpStatus := 401, success := none, assigned := none, failed := none,
           results := none, errors := none, errMsg := some "Unauthorized - Please sign in" })
  | some _ =>
    match companyIds with
    | none => (db, resp400 "Invalid company IDs")
    | some ids =>
      if ids.isEmpty then (db, resp400 "Invalid company IDs")
      else
        match sequenceId with
        | none => (db, resp400 "Sequence ID is required")
        | some sid =>
          if sid = "" then (db, resp400 "Sequence ID is required")
          else
            let r := assignLoop now sid "demo-org" db ids
            if r.2.2.length > 0 ∧ r.2.1.length = 0 then
              (r.1, { httpStatus := 500, success := none, assigned := none, failed := none,
                      results := none, errors := some r.2.2,
                      errMsg := some "All assignments failed" })
            else
              (r.1, { httpStatus := 200, success := some true,
                      assigned := some r.2.1.length, failed := some r.2.2.length,
                      results := some r.2.1,
                      errors := if r.2.2.length > 0 then some r.2.2 else none,
                      errMsg := none })

theorem assignLoop_cons (now : Nat) (sequenceId orgId : String) (db : Db)
    (c : String) (rest : List String) :
    assignLoop now sequenceId orgId db (c :: rest) =
      (match assignCompanyToSequence db c sequenceId orgId now with
       | Except.ok (db2, a) =>
         ((assignLoop now sequenceId orgId db2 rest).1,
          a :: (assignLoop now sequenceId orgId db2 rest).2.1,
          (assignLoop now sequenceId orgId db2 rest).2.2)
       | Except.error e =>
         ((assignLoop now sequenceId orgId db rest).1,
          (assignLoop now sequenceId orgId db rest).2.1,
          (c, e) :: (assignLoop now sequenceId orgId db rest).2.2)) := by
  cases hres : assignCompanyToSequence db c sequenceId orgId now with
  | ok p =>
    obtain ⟨db2, a⟩ := p
    show (match assignCompanyToSequence db c sequenceId orgId now with
      | Except.ok (db2, a) =>
        let r := assignLoop now sequenceId orgId db2 rest
        (r.1, a :: r.2.1, r.2.2)
      | Except.error e =>
        let r := assignLoop now sequenceId orgId db rest
        (r.1, r.2.1, (c, e) :: r.2.2)) = _
    rw [hres]
  | error e =>
    show (match assignCompanyToSequence db c sequenceId orgId now with
      | Except.ok (db2, a) =>
        let r := assignLoop now sequenceId orgId db2 rest
        (r.1, a :: r.2.1, r.2.2)
      | Except.error e =>
        let r := assignLoop now sequenceId orgId db rest
        (r.1, r.2.1, (c, e) :: r.2.2)) = _
    rw [hres]

theorem assignLoop_total (now : Nat) (sequenceId orgId : String) :
    ∀ (ids : List String) (db : Db),
      (assignLoop now sequenceId orgId db ids).2.1.length +
        (assignLoop now sequenceId orgId db ids).2.2.length = ids.length := by
  intro ids
  induction ids with
  | nil => intro db; rfl
  | cons c rest ih =>
    intro db
    rw [assignLoop_cons]
    cases hres : assignCompanyToSequence db c sequenceId orgId now with
    | ok p =>
      obtain ⟨db2, a⟩ := p
      have hr := ih db2
      show (a :: (assignLoop now sequenceId orgId db2 rest).2.1).length +
        (assignLoop now sequenceId orgId db2 rest).2.2.length = rest.length + 1
      simp only [List.length_cons]
      omega
    | error e =>
      have hr := ih db
      show (assignLoop now sequenceId orgId db rest).2.1.length +
        ((c, e) :: (assignLoop now sequenceId orgId db rest).2.2).length = rest.length + 1
      simp only [List.length_cons]
      omega

theorem assignLoop_error_continues (now : Nat) (sequenceId orgId : String)
    (db : Db) (c : String) (rest : List String) (e : String)
    (h : assignCompanyToSequence db c sequenceId orgId now = Except.error e) :
    assignLoop now sequenceId orgId db (c :: rest) =
      ((assignLoop now sequenceId orgId db rest).1,
       (assignLoop now sequenceId orgId db rest).2.1,
       (c, e) :: (assignLoop now sequenceId orgId db rest).2.2) := by
  rw [assignLoop_cons, h]

/-- C8: the batch assignment route answers 401 without an authenticated
user; 400 when companyIds is missing or empty or the sequence id is
missing/empty; a per-item error is consed onto the error list while the
loop continues, and successes plus collected errors exhaust the batch;
the status is 500 exactly when every requested assignment failed; and with
at least one success it answers 200 with success = true, the
success/failure counts, the results, and the errors array only when it is
nonempty. -/
theorem assignCompaniesPOST_spec :
    (∀ (companyIds : Option (List String)) (sequenceId : Option String) (db : Db) (now : Nat),
      (assignCompaniesPOST none companyIds sequenceId db now).2.httpStatus = 401) ∧
    (∀ (u : String) (sequenceId : Option String) (db : Db) (now : Nat),
      (assignCompaniesPOST (some u) none sequenceId db now).2.httpStatus = 400 ∧
      (assignCompaniesPOST (some u) (some []) sequenceId db now).2.httpStatus = 400) ∧
    (∀ (u : String) (ids : List String) (db : Db) (now : Nat),
      ids ≠ [] →
      (assignCompaniesPOST (some u) (some ids) none db now).2.httpStatus = 400 ∧
      (assignCompaniesPOST (some u) (some ids) (some "") db now).2.httpStatus = 400) ∧
    (∀ (now : Nat) (sid org : String) (db : Db) (c : String) (rest : List String) (e : String),
      assignCompanyToSequence db c sid org now = Except.error e →
      assignLoop now sid org db (c :: rest) =
        ((assignLoop now sid org db rest).1,
         (assignLoop now sid org db rest).2.1,
         (c, e) :: (assignLoop now sid org db rest).2.2)) ∧
    (∀ (u : String) (ids : List String) (sid : String) (db : Db) (now : Nat),
      ids ≠ [] → sid ≠ "" →
      (assignLoop now sid "demo-org" db ids).2.1.length +
        (assignLoop now sid "demo-org" db ids).2.2.length = ids.length ∧
      ((assignCompaniesPOST (some u) (some ids) (some sid) db now).2.httpStatus = 500 ↔
        (assignLoop now sid "demo-org" db ids).2.2.length = ids.length) ∧
      (0 < (assignLoop now sid "demo-org" db ids).2.1.length →
        (assignCompaniesPOST (some u) (some ids) (some sid) db now).2 =
          { httpStatus := 200, success := some true,
            assigned := some (assignLoop now sid "demo-org" db ids).2.1.length,
            failed := some (assignLoop now sid "demo-org" db ids).2.2.length,
            results := some (assignLoop now sid "demo-org" db ids).2.1,
            errors := if (assignLoop now sid "demo-org" db ids).2.2.length > 0 then
                some (assignLoop now sid "demo-org" db ids).2.2
              else none,
            errMsg := none })) := by
  refine ⟨fun _ _ _ _ => rfl, fun _ _ _ _ => ⟨rfl, rfl⟩, ?_, assignLoop_error_continues, ?_⟩
  · intro u ids db now hne
    have hemp : ids.isEmpty = false := by
      cases ids with
      | nil => exact absurd rfl hne
      | cons x xs => rfl
    constructor
    · show (if ids.isEmpty then (db, resp400 "Invalid company IDs")
        else (db, resp400 "Sequence ID is required")).2.httpStatus = 400
      rw [hemp]
      rfl
    · show (if ids.isEmpty then (db, resp400 "Invalid company IDs")
        else if ("" : String) = "" then (db, resp400 "Sequence ID is required")
        else _).2.httpStatus = 400
      rw [hemp]
      simp [resp400]
  · intro u ids sid db now hne hsid
    have hemp : ids.isEmpty = false := by
      cases ids with
      | nil => exact absurd rfl hne
      | cons x xs => rfl
    have htot := assignLoop_total now sid "demo-org" ids db
    have hred : assignCompaniesPOST (some u) (some ids) (some sid) db now =
        (if (assignLoop now sid "demo-org" db ids).2.2.length > 0 ∧
            (assignLoop now sid "demo-org" db ids).2.1.length = 0 then
          ((assignLoop now sid "demo-org" db ids).1,
           { httpStatus := 500, success := none, assigned := none, failed := none,
             results := none, errors := some (assignLoop now sid "demo-org" db ids).2.2,
             errMsg := some "All assignments failed" })
        else
          ((assignLoop now sid "demo-org" db ids).1,
           { httpStatus := 200, success := some true,
             assigned := some (assignLoop now sid "demo-org" db ids).2.1.length,
             failed := some (assignLoop now sid "demo-org" db ids).2.2.length,
             results := some (assignLoop now sid "demo-org" db ids).2.1,
             errors := if (assignLoop now sid "demo-org" db ids).2.2.length > 0 then
                 some (assignLoop now sid "demo-org" db ids).2.2
               else none,
             errMsg := none })) := by
      show (if ids.isEmpty then (db, resp400 "Invalid company IDs")
        else if sid = "" then (db, resp400 "Sequence ID is required")
        else _) = _
      rw [hemp]
      simp only [Bool.false_eq_true, if_false]
      rw [if_neg hsid]
    refine ⟨htot, ?_, ?_⟩
    · rw [hred]
      by_cases hcond : (assignLoop now sid "demo-org" db ids).2.2.length > 0 ∧
          (assignLoop now sid "demo-org" db ids).2.1.length = 0
      · rw [if_pos hcond]
        constructor
        · intro _
          omega
        · intro _
          rfl
      · rw [if_neg hcond]
        constructor
        · intro h200
          simp at h200
        · intro hall
          have hlen : 0 < ids.length := List.length_pos.mpr hne
          exact absurd ⟨by omega, by omega⟩ hcond
    · intro hpos
      rw [hred]
      rw [if_neg (by omega :
        ¬ ((assignLoop now sid "demo-org" db ids).2.2.length > 0 ∧
           (assignLoop now sid "demo-org" db ids).2.1.length = 0))]

theorem assignCompaniesPOST_spec_witness :
    (assignCompaniesPOST none (some ["acme"]) (some "seq1") exDb 5).2.httpStatus = 401 ∧
    (assignCompaniesPOST (some "user1") none (some "seq1") exDb 5).2.httpStatus = 400 ∧
    (assignCompaniesPOST (some "user1") (some []) (some "seq1") exDb 5).2.httpStatus = 400 ∧
    (assignCompaniesPOST (some "user1") (some ["acme"]) none exDb 5).2.httpStatus = 400 ∧
    (assignCompaniesPOST (some "user1") (some ["acme"]) (some "") exDb 5).2.httpStatus = 400 ∧
    assignLoop 5 "seq1" "demo-org" exDb ["ghost"] =
      ((assignLoop 5 "seq1" "demo-org" exDb []).1,
       (assignLoop 5 "seq1" "demo-org" exDb []).2.1,
       ("ghost", "Company ghost not found") :: (assignLoop 5 "seq1" "demo-org" exDb []).2.2) ∧
    (assignLoop 5 "seq1" "demo-org" exDb ["acme", "ghost"]).2.1.length +
      (assignLoop 5 "seq1" "demo-org" exDb ["acme", "ghost"]).2.2.length = 2 ∧
    ((assignCompaniesPOST (some "user1") (some ["acme", "ghost"]) (some "seq1")
        exDb 5).2.httpStatus = 500 ↔
      (assignLoop 5 "seq1" "demo-org" exDb ["acme", "ghost"]).2.2.length = 2) ∧
    (assignCompaniesPOST (some "user1") (some ["acme", "ghost"]) (some "seq1") exDb 5).2 =
      { httpStatus := 200, success := some true,
        assigned := some (assignLoop 5 "seq1" "demo-org" exDb ["acme", "ghost"]).2.1.length,
        failed := some (assignLoop 5 "seq1" "demo-org" exDb ["acme", "ghost"]).2.2.length,
        results := some (assignLoop 5 "seq1" "demo-org" exDb ["acme", "ghost"]).2.1,
        errors := if (assignLoop 5 "seq1" "demo-org" exDb ["acme", "ghost"]).2.2.length > 0 then
            some (assignLoop 5 "seq1" "demo-org" exDb ["acme", "ghost"]).2.2
          else none,
        errMsg := none } :=
  ⟨assignCompaniesPOST_spec.1 (some ["acme"]) (some "seq1") exDb 5,
   (assignCompaniesPOST_spec.2.1 "user1" (some "seq1") exDb 5).1,
   (assignCompaniesPOST_spec.2.1 "user1" (some "seq1") exDb 5).2,
   (assignCompaniesPOST_spec.2.2.1 "user1" ["acme"] exDb 5 (by decide)).1,
   (assignCompaniesPOST_spec.2.2.1 "user1" ["acme"] exDb 5 (by decide)).2,
   assignCompaniesPOST_spec.2.2.2.1 5 "seq1" "demo-org" exDb "ghost" [] "Company ghost not found"
     rfl,
   (assignCompaniesPOST_spec.2.2.2.2 "user1" ["acme", "ghost"] "seq1" exDb 5
     (by decide) (by decide)).1,
   (assignCompaniesPOST_spec.2.2.2.2 "user1" ["acme", "ghost"] "seq1" exDb 5
     (by decide) (by decide)).2.1,
   (assignCompaniesPOST_spec.2.2.2.2 "user1" ["acme", "ghost"] "seq1" exDb 5
     (by decide) (by decide)).2.2 (by decide)⟩

/-- The `orderBy: {createdAt: "desc"}` ordering of the sequence listing. -/
def newestFirst (x y : EmailSeq) : Prop := y.createdAt ≤ x.createdAt

instance : DecidableRel newestFirst := fun x y => Nat.decLe y.createdAt x.createdAt

instance : IsTotal EmailSeq newestFirst := ⟨fun a b => Nat.le_total b.createdAt a.createdAt⟩

instance : IsTrans EmailSeq newestFirst := ⟨fun _ _ _ hab hbc => Nat.le_trans hbc hab⟩

/-- The sequence listing `GET` route
(src/app/api/email-sequences/route.ts): `findMany` over the whole
EmailSequence table with `orderBy: {createdAt: "desc"}` and no `where`
clause at all. -/
def getEmailSequencesRoute (db : Db) : List EmailSeq :=
  List.insertionSort newestFirst db.emailSequences

/-- A sequence owned by the demo tenant. -/
def seqDemoOrg : EmailSeq :=
  { id := "sA", orgId := "demo-org", name := "A", steps := exSteps,
    fromName := none, fromEmail := none, createdAt := 2 }

/-- A sequence owned by a different tenant. -/
def seqOtherOrg : EmailSeq :=
  { id := "sB", orgId := "other-org", name := "B", steps := exSteps,
    fromName := none, fromEmail := none, createdAt := 1 }

/-- A store holding sequences of two different tenants. -/
def exDbTwoOrgs : Db :=
  { companies := [], emailSequences := [seqDemoOrg, seqOtherOrg],
    companySequences := [], outboxEmails := [], nextId := 0 }

/-- C9 counterexample: the listing route returns the sequences of every
tenant — with a store holding a demo-org sequence and an other-org
sequence, a caller from either tenant receives both rows, so the response
contains a sequence of some other tenant, contradicting the claimed
tenant scoping. -/
theorem getEmailSequencesRoute_counterexample :
    seqOtherOrg ∈ getEmailSequencesRoute exDbTwoOrgs ∧
    seqDemoOrg ∈ getEmailSequencesRoute exDbTwoOrgs ∧
    seqOtherOrg.orgId = "other-org" ∧
    seqDemoOrg.orgId = "demo-org" ∧
    seqOtherOrg.orgId ≠ seqDemoOrg.orgId ∧
    getEmailSequencesRoute exDbTwoOrgs = [seqDemoOrg, seqOtherOrg] := by
  refine ⟨?_, ?_, rfl, rfl, by decide, ?_⟩ <;> decide

/-- C9 (amended): the listing route returns all sequences in the store —
without any tenant filtering — ordered newest first by creation
timestamp. -/
theorem getEmailSequencesRoute_all_newest_first :
    ∀ db : Db, (getEmailSequencesRoute db).Perm db.emailSequences ∧
      List.Sorted newestFirst (getEmailSequencesRoute db) :=
  fun db => ⟨List.perm_insertionSort newestFirst db.emailSequences,
             List.sorted_insertionSort newestFirst db.emailSequences⟩
